import Mathlib

/-!
A shallow embedding of the encrypted credential vault of `src/vault/core.py`
and `src/vault/manager.py`.

Modelling conventions:
* Timestamps are integers (seconds, UTC).  `_now_utc()` is modelled by an
  explicit `now` argument threaded into each operation; an operation that
  internally calls `save()` passes its own `now` on (the two clock reads in
  the Python code happen at essentially the same instant and no property
  here depends on the difference).
* The Scrypt KDF (an external library call) is modelled as an ideal
  deterministic, collision-free function: a derived key is the pair
  (password, salt).
* AES-GCM (an external library call) is modelled as an ideal AEAD:
  a ciphertext-with-tag is an opaque value recording the key, the nonce and
  the plaintext; decryption succeeds exactly when the same key and nonce are
  supplied, and fails on anything else (including the `garbage` constructor
  that stands for tampered or arbitrary bytes).
* JSON serialization of the vault document is a bijection, so plaintexts are
  `VaultContent` values directly.
* Entries are Python dicts; the fields the vault logic inspects are modelled
  as structure fields, the remaining free-form caller fields as an
  association list `extra`.  The optional `expires_at` value distinguishes
  the Python possibilities: key absent, value `None`, empty string, a string
  that `_iso_to_dt` parses to a timestamp, and an unparsable string.
* Python exceptions become `Except VErr` results.  Because the Python
  methods can mutate `self` before raising, every state-changing operation
  returns the (possibly mutated) state alongside the `Except` result.
-/

namespace Vault

/-- Error categories of the `VaultError` messages raised by
`src/vault/core.py` (plus `internalTypeError` for the uncaught Python
`TypeError` that would occur if `vault_data` were `None` while the locked
flag is clear — unreachable through the public API). -/
inductive VErr : Type
  | fileNotFound
  | invalidFile
  | decryptFailed
  | unlockFailed (inner : VErr)
  | vaultLocked
  | lockedCannotSave
  | keyMissing
  | saveFailed (inner : VErr)
  | emptyService
  | cannotChangeService
  | malformedExpiresAt (service : String)
  | internalTypeError
  deriving Repr, DecidableEq

/-- Decidable equality for `Except` results, used to evaluate the model
at concrete inputs. -/
instance exceptDecEq {ε α : Type} [DecidableEq ε] [DecidableEq α] :
    DecidableEq (Except ε α) := fun a b =>
  match a, b with
  | .ok x, .ok y =>
      if h : x = y then .isTrue (by rw [h]) else .isFalse (by simp [h])
  | .error x, .error y =>
      if h : x = y then .isTrue (by rw [h]) else .isFalse (by simp [h])
  | .ok _, .error _ => .isFalse (by simp)
  | .error _, .ok _ => .isFalse (by simp)

/-- Python `str.strip()`: drop whitespace from both ends.  Implemented on
the character list so that it evaluates by kernel reduction. -/
def pyStrip (s : String) : String :=
  ⟨((s.data.dropWhile Char.isWhitespace).reverse.dropWhile Char.isWhitespace).reverse⟩

/-- Python `str.lower()`: lowercase each character.  Implemented on the
character list so that it evaluates by kernel reduction. -/
def pyLower (s : String) : String :=
  ⟨s.data.map Char.toLower⟩

/-- The value held under the `expires_at` key of an entry dict.  Python
truthiness: `absent`, `pynone` and `emptyStr` are falsy. -/
inductive ExpiresAt : Type
  | absent
  | pynone
  | emptyStr
  | validTS (t : Int)
  | malformedTS
  deriving Repr, DecidableEq

/-- An entry dict.  `service` models `entry.get("service", "")`;
`idField` is the optional `"id"` key; `extra` holds the remaining
free-form caller fields. -/
structure Entry : Type where
  service : String
  expires_at : ExpiresAt
  created_at : Option Int
  updated_at : Option Int
  idField : Option Nat
  extra : List (String × String)
  deriving Repr, DecidableEq

/-- Derived key; models `_derive_key`: Scrypt is deterministic in
(password, salt) and idealised as collision-free. -/
structure Key : Type where
  password : String
  salt : Nat
  deriving Repr, DecidableEq

def deriveKey (password : String) (salt : Nat) : Key :=
  ⟨password, salt⟩

/-- The decrypted vault document (`vault_content` in `create`):
version tag, entry list, and the two metadata timestamps. -/
structure VaultContent : Type where
  version : Nat
  entries : List Entry
  created : Int
  last_modified : Int
  deriving Repr, DecidableEq

/-- AES-GCM ciphertext-with-tag, idealised AEAD: `garbage` stands for
tampered or arbitrary bytes that decrypt under no key. -/
inductive Ciphertext : Type
  | enc (key : Key) (nonce : Nat) (content : VaultContent)
  | garbage
  deriving Repr, DecidableEq

def aesgcmEncrypt (key : Key) (nonce : Nat) (content : VaultContent) : Ciphertext :=
  .enc key nonce content

def aesgcmDecrypt (key : Key) (nonce : Nat) (ct : Ciphertext) :
    Except VErr VaultContent :=
  match ct with
  | .enc k n content =>
      if k = key ∧ n = nonce then .ok content else .error .decryptFailed
  | .garbage => .error .decryptFailed

/-- On-disk layout: `salt(16) || nonce(12) || ciphertext‖tag`. -/
structure VaultFile : Type where
  salt : Nat
  nonce : Nat
  ciphertext : Ciphertext
  deriving Repr, DecidableEq

/-- The vault file on disk.  `tooShort junk` is a file of fewer than 28
bytes (`unlock` rejects it); `junk` stands for whatever byte prefix
`existing[:16]` would yield if `save` read such a file. -/
inductive FileState : Type
  | absent
  | tooShort (junk : Nat)
  | present (file : VaultFile)
  deriving Repr, DecidableEq

/-- In-memory fields of an `EncryptedVault` object. -/
structure VaultState : Type where
  masterPassword : String
  masterKey : Option Key
  vaultData : Option VaultContent
  lockedFlag : Bool
  deriving Repr, DecidableEq

namespace EncryptedVault

/-- `EncryptedVault.__init__`. -/
def init (master_password : String) : VaultState :=
  { masterPassword := master_password
    masterKey := none
    vaultData := none
    lockedFlag := true }

/-- `EncryptedVault.is_locked`. -/
def is_locked (st : VaultState) : Bool :=
  st.lockedFlag

/-- `EncryptedVault.lock`. -/
def lock (st : VaultState) : VaultState :=
  { st with vaultData := none, masterKey := none, lockedFlag := true }

/-- `EncryptedVault.create`: derive a key from a fresh salt, build the
empty version-2 document, encrypt under a fresh nonce, write
`salt || nonce || ciphertext`, hold key and content, clear the locked
flag.  The fresh random values are explicit arguments. -/
def create (st : VaultState) (now : Int) (freshSalt freshNonce : Nat) :
    VaultState × FileState × Except VErr Bool :=
  let key := deriveKey st.masterPassword freshSalt
  let vd : VaultContent :=
    { version := 2, entries := [], created := now, last_modified := now }
  let ct := aesgcmEncrypt key freshNonce vd
  ({ st with masterKey := some key, vaultData := some vd, lockedFlag := false },
   .present ⟨freshSalt, freshNonce, ct⟩,
   .ok true)

/-- `EncryptedVault.unlock`: read the file, split salt/nonce/ciphertext,
derive the key from the stored salt and the object's password, decrypt,
load the document, clear the locked flag.  Every failure is wrapped in the
uniform "Failed to unlock vault (wrong password?)" error.  The Python
method assigns `self.master_key` before decrypting, so a failed decryption
leaves the freshly derived key behind; the returned state reflects that.
The backward-compatibility `setdefault` lines are no-ops here because a
decrypted `VaultContent` always carries all fields. -/
def unlock (st : VaultState) (fs : FileState) : VaultState × Except VErr Bool :=
  match fs with
  | .absent => (st, .error (.unlockFailed .fileNotFound))
  | .tooShort _ => (st, .error (.unlockFailed .invalidFile))
  | .present f =>
      let key := deriveKey st.masterPassword f.salt
      let st2 := { st with masterKey := some key }
      match aesgcmDecrypt key f.nonce f.ciphertext with
      | .error e => (st2, .error (.unlockFailed e))
      | .ok content =>
          ({ st2 with vaultData := some content, lockedFlag := false }, .ok true)

/-- `EncryptedVault.save`: guard, stamp `last_modified`, encrypt the
document under the held key with a fresh nonce, reuse the salt read back
from the existing file, rewrite `salt || nonce || ciphertext`.  All
failures are wrapped in the "Failed to save vault" error; mutations made
before a failure (the `last_modified` stamp) persist in the returned
state, as in the Python method. -/
def save (st : VaultState) (fs : FileState) (now : Int) (freshNonce : Nat) :
    VaultState × FileState × Except VErr Bool :=
  match st.vaultData with
  | none => (st, fs, .error (.saveFailed .lockedCannotSave))
  | some vd =>
      if st.lockedFlag then (st, fs, .error (.saveFailed .lockedCannotSave))
      else
        let vd2 := { vd with last_modified := now }
        let st2 := { st with vaultData := some vd2 }
        match st.masterKey with
        | none => (st2, fs, .error (.saveFailed .keyMissing))
        | some key =>
            match fs with
            | .absent => (st2, fs, .error (.saveFailed .fileNotFound))
            | .tooShort junk =>
                (st2, .present ⟨junk, freshNonce, aesgcmEncrypt key freshNonce vd2⟩,
                 .ok true)
            | .present old =>
                (st2, .present ⟨old.salt, freshNonce, aesgcmEncrypt key freshNonce vd2⟩,
                 .ok true)

/-- `EncryptedVault._is_entry_expired`: falsy `expires_at` means infinite
TTL; an unparsable timestamp is a hard `VaultError`; otherwise expired
exactly when `now >= expires_at`. -/
def isEntryExpired (e : Entry) (now : Int) : Except VErr Bool :=
  match e.expires_at with
  | .absent => .ok false
  | .pynone => .ok false
  | .emptyStr => .ok false
  | .validTS t => .ok (decide (t ≤ now))
  | .malformedTS => .error (.malformedExpiresAt e.service)

/-- The case-insensitive service comparison
`entry.get("service", "").lower() == service.lower()`. -/
def serviceMatch (e : Entry) (service : String) : Bool :=
  decide (pyLower e.service = pyLower service)

/-- The entry stored by `add_credential` for a given caller dict (its
non-`ttl_seconds` fields as an `Entry`) and optional `ttl_seconds`:
pop the ttl into an absolute `expires_at`, `setdefault` `created_at`,
overwrite `updated_at`. -/
def storedEntry (input : Entry) (ttl_seconds : Option Int) (now : Int) : Entry :=
  let e1 :=
    match ttl_seconds with
    | some t => { input with expires_at := .validTS (now + t) }
    | none => input
  let e2 :=
    match e1.created_at with
    | none => { e1 with created_at := some now }
    | some _ => e1
  { e2 with updated_at := some now }

/-- `EncryptedVault.add_credential`: locked guard, non-empty stripped
`service` guard, build the stored entry, append, save. -/
def add_credential (st : VaultState) (fs : FileState) (input : Entry)
    (ttl_seconds : Option Int) (now : Int) (freshNonce : Nat) :
    VaultState × FileState × Except VErr Entry :=
  if st.lockedFlag then (st, fs, .error .vaultLocked)
  else if pyStrip input.service = "" then (st, fs, .error .emptyService)
  else
    match st.vaultData with
    | none => (st, fs, .error .internalTypeError)
    | some vd =>
        let entry := storedEntry input ttl_seconds now
        let st2 := { st with vaultData := some { vd with entries := vd.entries ++ [entry] } }
        match save st2 fs now freshNonce with
        | (st3, fs3, .ok _) => (st3, fs3, .ok entry)
        | (st3, fs3, .error e) => (st3, fs3, .error e)

/-- Outcome of the lookup loop of `get_credential` on the entry list:
no case-insensitive match, a first unexpired match (returned as-is), or a
first expired match (`remaining` is the list with that entry popped). -/
inductive GetOutcome : Type
  | notFound
  | found (e : Entry)
  | expiredMatch (remaining : List Entry)
  deriving Repr, DecidableEq

/-- The `for i, entry in enumerate(...)` loop of `get_credential`:
skip non-matches, stop at the first case-insensitive match, evaluating its
expiry (which may raise). -/
def getScan (service : String) (now : Int) : List Entry → Except VErr GetOutcome
  | [] => .ok .notFound
  | e :: rest =>
      if serviceMatch e service then
        match isEntryExpired e now with
        | .error err => .error err
        | .ok true => .ok (.expiredMatch rest)
        | .ok false => .ok (.found e)
      else
        match getScan service now rest with
        | .error err => .error err
        | .ok .notFound => .ok .notFound
        | .ok (.found e2) => .ok (.found e2)
        | .ok (.expiredMatch rest2) => .ok (.expiredMatch (e :: rest2))

/-- `EncryptedVault.get_credential`: locked guard, first case-insensitive
match; an expired match is popped and the vault saved when
`purge_if_expired`, and "not found" (`none`) is returned either way. -/
def get_credential (st : VaultState) (fs : FileState) (service : String)
    (purge_if_expired : Bool) (now : Int) (freshNonce : Nat) :
    VaultState × FileState × Except VErr (Option Entry) :=
  if st.lockedFlag then (st, fs, .error .vaultLocked)
  else
    match st.vaultData with
    | none => (st, fs, .error .internalTypeError)
    | some vd =>
        match getScan service now vd.entries with
        | .error err => (st, fs, .error err)
        | .ok .notFound => (st, fs, .ok none)
        | .ok (.found e) => (st, fs, .ok (some e))
        | .ok (.expiredMatch remaining) =>
            if purge_if_expired then
              let st2 := { st with vaultData := some { vd with entries := remaining } }
              match save st2 fs now freshNonce with
              | (st3, fs3, .ok _) => (st3, fs3, .ok none)
              | (st3, fs3, .error e) => (st3, fs3, .error e)
            else (st, fs, .ok none)

/-- The keys of the entry dict, as returned by `list(entry.keys())` in
`get_service_fields`.  The relative order is a model artifact (Python
preserves dict insertion order, which depends on the caller's dict); no
property proved here depends on the order. -/
def entryKeys (e : Entry) : List String :=
  ["service"] ++ e.extra.map Prod.fst
    ++ (match e.expires_at with | .absent => [] | _ => ["expires_at"])
    ++ (if e.created_at.isSome then ["created_at"] else [])
    ++ (if e.updated_at.isSome then ["updated_at"] else [])
    ++ (if e.idField.isSome then ["id"] else [])

/-- The lookup loop of `get_service_fields`: first case-insensitive match;
expired match reads as "not found"; otherwise the key list. -/
def fieldsScan (service : String) (now : Int) :
    List Entry → Except VErr (Option (List String))
  | [] => .ok none
  | e :: rest =>
      if serviceMatch e service then
        match isEntryExpired e now with
        | .error err => .error err
        | .ok true => .ok none
        | .ok false => .ok (some (entryKeys e))
      else fieldsScan service now rest

/-- `EncryptedVault.get_service_fields`: locked guard then `fieldsScan`.
Reads only; never saves. -/
def get_service_fields (st : VaultState) (service : String) (now : Int) :
    Except VErr (Option (List String)) :=
  if st.lockedFlag then .error .vaultLocked
  else
    match st.vaultData with
    | none => .error .internalTypeError
    | some vd => fieldsScan service now vd.entries

/-- The `updates` dict of `update_credential`: an optional `service` key,
an optional `ttl_seconds` key, an optional explicit `expires_at` key, and
the remaining free-form string fields. -/
structure UpdateData : Type where
  service : Option String
  ttl_seconds : Option Int
  expires_at : Option ExpiresAt
  extra : List (String × String)
  deriving Repr, DecidableEq

/-- `dict.__setitem__` on the association-list model of free-form fields:
replace in place, append if new. -/
def setKey : List (String × String) → String → String → List (String × String)
  | [], k, v => [(k, v)]
  | (k2, v2) :: rest, k, v =>
      if k2 = k then (k2, v) :: rest else (k2, v2) :: setKey rest k v

/-- `entry.update(...)` over the free-form fields. -/
def mergeExtra (base : List (String × String)) :
    List (String × String) → List (String × String)
  | [] => base
  | (k, v) :: rest => mergeExtra (setKey base k v) rest

/-- The merge performed by `update_credential` on the matched entry:
pop `ttl_seconds` into a fresh `expires_at` (overwriting an explicit
`expires_at` in the updates), merge the remaining fields, stamp
`updated_at`. -/
def applyUpdates (e : Entry) (u : UpdateData) (now : Int) : Entry :=
  let expNew : Option ExpiresAt :=
    match u.ttl_seconds with
    | some t => some (.validTS (now + t))
    | none => u.expires_at
  let e1 :=
    match u.service with
    | some s => { e with service := s }
    | none => e
  let e2 :=
    match expNew with
    | some x => { e1 with expires_at := x }
    | none => e1
  { e2 with extra := mergeExtra e2.extra u.extra, updated_at := some now }

/-- Outcome of the lookup loop of `update_credential`. -/
inductive UpdOutcome : Type
  | notFound
  | expiredMatch
  | updated (e : Entry) (newEntries : List Entry)
  deriving Repr, DecidableEq

/-- The `for entry in ...` loop of `update_credential`: first
case-insensitive match; an expired match reads as "not found" (and is not
purged); otherwise the entry is merged in place. -/
def updateScan (service : String) (u : UpdateData) (now : Int) :
    List Entry → Except VErr UpdOutcome
  | [] => .ok .notFound
  | e :: rest =>
      if serviceMatch e service then
        match isEntryExpired e now with
        | .error err => .error err
        | .ok true => .ok .expiredMatch
        | .ok false =>
            let e2 := applyUpdates e u now
            .ok (.updated e2 (e2 :: rest))
      else
        match updateScan service u now rest with
        | .error err => .error err
        | .ok .notFound => .ok .notFound
        | .ok .expiredMatch => .ok .expiredMatch
        | .ok (.updated e2 rest2) => .ok (.updated e2 (e :: rest2))

/-- `EncryptedVault.update_credential`: locked guard, reject renaming the
`service` field (stripped, case-insensitive comparison), find and merge,
save on success. -/
def update_credential (st : VaultState) (fs : FileState) (service : String)
    (u : UpdateData) (now : Int) (freshNonce : Nat) :
    VaultState × FileState × Except VErr (Option Entry) :=
  if st.lockedFlag then (st, fs, .error .vaultLocked)
  else if (match u.service with
           | some s => !(decide (pyLower (pyStrip s) = pyLower (pyStrip service)))
           | none => false) then
    (st, fs, .error .cannotChangeService)
  else
    match st.vaultData with
    | none => (st, fs, .error .internalTypeError)
    | some vd =>
        match updateScan service u now vd.entries with
        | .error err => (st, fs, .error err)
        | .ok .notFound => (st, fs, .ok none)
        | .ok .expiredMatch => (st, fs, .ok none)
        | .ok (.updated e2 newEntries) =>
            let st2 := { st with vaultData := some { vd with entries := newEntries } }
            match save st2 fs now freshNonce with
            | (st3, fs3, .ok _) => (st3, fs3, .ok (some e2))
            | (st3, fs3, .error e) => (st3, fs3, .error e)

/-- The loop of `list_services`: `include_expired or not expired` with
Python short-circuiting — when `include_expired` is set the expiry (and
hence a malformed timestamp) is never evaluated. -/
def listScan (now : Int) (include_expired : Bool) :
    List Entry → Except VErr (List String)
  | [] => .ok []
  | e :: rest =>
      if include_expired then
        match listScan now include_expired rest with
        | .error err => .error err
        | .ok names => .ok (e.service :: names)
      else
        match isEntryExpired e now with
        | .error err => .error err
        | .ok true => listScan now include_expired rest
        | .ok false =>
            match listScan now include_expired rest with
            | .error err => .error err
            | .ok names => .ok (e.service :: names)

/-- `EncryptedVault.list_services`: returns `[]` while locked (instead of
raising); otherwise the service names of the (non-expired, unless
`include_expired`) entries in order.  Reads only; never saves. -/
def list_services (st : VaultState) (include_expired : Bool) (now : Int) :
    Except VErr (List String) :=
  if st.lockedFlag then .ok []
  else
    match st.vaultData with
    | none => .error .internalTypeError
    | some vd => listScan now include_expired vd.entries

/-- `EncryptedVault.delete_credential`: locked guard, drop every
case-insensitive match, save exactly when the list shrank, return whether
it did. -/
def delete_credential (st : VaultState) (fs : FileState) (service : String)
    (now : Int) (freshNonce : Nat) :
    VaultState × FileState × Except VErr Bool :=
  if st.lockedFlag then (st, fs, .error .vaultLocked)
  else
    match st.vaultData with
    | none => (st, fs, .error .internalTypeError)
    | some vd =>
        let remaining := vd.entries.filter (fun e => !(serviceMatch e service))
        if remaining.length < vd.entries.length then
          let st2 := { st with vaultData := some { vd with entries := remaining } }
          match save st2 fs now freshNonce with
          | (st3, fs3, .ok _) => (st3, fs3, .ok true)
          | (st3, fs3, .error e) => (st3, fs3, .error e)
        else
          ({ st with vaultData := some { vd with entries := remaining } }, fs, .ok false)

/-- The list comprehension of `purge_expired`: keep the non-expired
entries, raising on a malformed timestamp (in which case the entry list is
not reassigned). -/
def purgeScan (now : Int) : List Entry → Except VErr (List Entry)
  | [] => .ok []
  | e :: rest =>
      match isEntryExpired e now with
      | .error err => .error err
      | .ok true => purgeScan now rest
      | .ok false =>
          match purgeScan now rest with
          | .error err => .error err
          | .ok kept => .ok (e :: kept)

/-- `EncryptedVault.purge_expired`: locked guard, sweep out the expired
entries, save exactly when some entry was removed, return the count. -/
def purge_expired (st : VaultState) (fs : FileState) (now : Int) (freshNonce : Nat) :
    VaultState × FileState × Except VErr Nat :=
  if st.lockedFlag then (st, fs, .error .vaultLocked)
  else
    match st.vaultData with
    | none => (st, fs, .error .internalTypeError)
    | some vd =>
        match purgeScan now vd.entries with
        | .error err => (st, fs, .error err)
        | .ok kept =>
            let removed := vd.entries.length - kept.length
            let st2 := { st with vaultData := some { vd with entries := kept } }
            if removed > 0 then
              match save st2 fs now freshNonce with
              | (st3, fs3, .ok _) => (st3, fs3, .ok removed)
              | (st3, fs3, .error e) => (st3, fs3, .error e)
            else (st2, fs, .ok removed)

/-- The arguments of one `add_credential` call in a scenario: the caller
dict (split into its non-ttl fields and the optional `ttl_seconds`), the
clock reading, and the fresh nonce drawn by the `save` inside the call. -/
structure AddCall : Type where
  input : Entry
  ttl_seconds : Option Int
  now : Int
  freshNonce : Nat
  deriving Repr, DecidableEq

/-- Run a sequence of `add_credential` calls, stopping at the first
failure (a raised exception in Python). -/
def addAll (st : VaultState) (fs : FileState) :
    List AddCall → VaultState × FileState × Except VErr Unit
  | [] => (st, fs, .ok ())
  | c :: rest =>
      match add_credential st fs c.input c.ttl_seconds c.now c.freshNonce with
      | (st2, fs2, .ok _) => addAll st2 fs2 rest
      | (st2, fs2, .error e) => (st2, fs2, .error e)

/-- Run a sequence of `save` calls (each with its clock reading and fresh
nonce), stopping at the first failure. -/
def applySaves (st : VaultState) (fs : FileState) :
    List (Int × Nat) → VaultState × FileState × Except VErr Unit
  | [] => (st, fs, .ok ())
  | c :: rest =>
      match save st fs c.1 c.2 with
      | (st2, fs2, .ok _) => applySaves st2 fs2 rest
      | (st2, fs2, .error e) => (st2, fs2, .error e)

/-- The healthy-unlocked-vault invariant: the state holds the password
`pw`, is unlocked, holds the key derived from `pw` and the creation salt
`salt0`, holds a document, and the file on disk is
`salt0 || nonce || encryption of that document` under that key.
Established by `create` and preserved by `save` and the mutating entry
operations. -/
def Good (pw : String) (salt0 : Nat) (st : VaultState) (fs : FileState) : Prop :=
  st.masterPassword = pw ∧ st.lockedFlag = false ∧
  st.masterKey = some (deriveKey pw salt0) ∧
  ∃ vd nonce, st.vaultData = some vd ∧
    fs = .present ⟨salt0, nonce, aesgcmEncrypt (deriveKey pw salt0) nonce vd⟩

/-- Replace an entry's `"id"` field as a function of the old one,
leaving every other field alone. -/
def reidF (f : Option Nat → Option Nat) (e : Entry) : Entry :=
  { e with idField := f e.idField }

/-- Apply an `"id"`-field replacement to every entry held in memory. -/
def mapIds (f : Option Nat → Option Nat) (st : VaultState) : VaultState :=
  { st with vaultData :=
      st.vaultData.map (fun vd => { vd with entries := vd.entries.map (reidF f) }) }

/-- Apply an entry transformation to a `get_credential` lookup outcome. -/
def mapGetOutcome (g : Entry → Entry) : GetOutcome → GetOutcome
  | .notFound => .notFound
  | .found e => .found (g e)
  | .expiredMatch rest => .expiredMatch (rest.map g)

/-- Apply an entry transformation to an `update_credential` lookup
outcome. -/
def mapUpdOutcome (g : Entry → Entry) : UpdOutcome → UpdOutcome
  | .notFound => .notFound
  | .expiredMatch => .expiredMatch
  | .updated e es => .updated (g e) (es.map g)

/-- The result is the `VaultError` raised for a malformed `expires_at`
(the validation-error category of the spec). -/
def IsMalformedFailure {α : Type} (r : Except VErr α) : Prop :=
  ∃ s, r = .error (.malformedExpiresAt s)

/-- The document with its `last_modified` stamped, as done by `save`. -/
def stamped (vd : VaultContent) (now : Int) : VaultContent :=
  { vd with last_modified := now }

/-- The document with its entry list replaced. -/
def withEntries (vd : VaultContent) (es : List Entry) : VaultContent :=
  { vd with entries := es }

/-- The document as left in memory by a successful `add_credential`:
the stored entry appended and `last_modified` stamped by the `save`
inside the call. -/
def afterAdd (vd : VaultContent) (e : Entry) (now : Int) : VaultContent :=
  stamped (withEntries vd (vd.entries ++ [e])) now

/-- Scenario for the TTL claim: create a fresh vault, add one entry (with
an optional `ttl_seconds`), then `get` the same service with the purge
flag at a later time.  Returns the add result and the get result. -/
def addThenGet (pw : String) (t0 : Int) (salt0 n0 : Nat) (input : Entry)
    (ttl : Option Int) (now1 : Int) (n1 : Nat) (now2 : Int) (n2 : Nat) :
    (VaultState × FileState × Except VErr Entry) ×
      (VaultState × FileState × Except VErr (Option Entry)) :=
  let cr := create (init pw) t0 salt0 n0
  let ad := add_credential cr.1 cr.2.1 input ttl now1 n1
  (ad, get_credential ad.1 ad.2.1 input.service true now2 n2)

/-- The round-trip scenario of the spec: create with password `pw`, run
the given `add_credential` calls, lock, unlock with the same password.
Returns the post-unlock state, the final file, the add-phase result and
the unlock result. -/
def roundTrip (pw : String) (t0 : Int) (salt0 n0 : Nat) (calls : List AddCall) :
    VaultState × FileState × Except VErr Unit × Except VErr Bool :=
  let cr := create (init pw) t0 salt0 n0
  let ad := addAll cr.1 cr.2.1 calls
  let ul := unlock (lock ad.1) ad.2.1
  (ul.1, ad.2.1, ad.2.2, ul.2)

end EncryptedVault

/-- In-memory field of the `VaultManager` singleton: the `_vault` class
attribute, `None` until a successful `initialize()`. -/
structure VaultManager : Type where
  vault : Option VaultState
  deriving Repr, DecidableEq

/-- `VaultManager.is_locked`: `True` when no vault instance exists,
otherwise the vault's own flag. -/
def VaultManager.is_locked (m : VaultManager) : Bool :=
  match m.vault with
  | none => true
  | some v => EncryptedVault.is_locked v

namespace EncryptedVault

/-- A successful `save` on an unlocked, key-holding state with an existing
file: stamps `last_modified`, keeps the file's salt, writes the fresh
nonce and the re-encrypted document. -/
theorem save_eq {st : VaultState} {fs : FileState} (vd : VaultContent) (key : Key)
    (f : VaultFile) (hlock : st.lockedFlag = false) (hvd : st.vaultData = some vd)
    (hkey : st.masterKey = some key) (hfs : fs = .present f)
    (now : Int) (n : Nat) :
    save st fs now n =
      ({ st with vaultData := some (stamped vd now) },
       .present ⟨f.salt, n, aesgcmEncrypt key n (stamped vd now)⟩,
       .ok true) := by
  subst hfs
  simp [save, hvd, hlock, hkey, stamped]

/-- `save` under the invariant: result, file shape, and preservation. -/
theorem save_of_good {pw : String} {salt0 : Nat} {st : VaultState} {fs : FileState}
    (hg : Good pw salt0 st fs) (now : Int) (n : Nat) :
    (∃ vd : VaultContent, st.vaultData = some vd ∧
      save st fs now n =
        ({ st with vaultData := some (stamped vd now) },
         .present ⟨salt0, n, aesgcmEncrypt (deriveKey pw salt0) n (stamped vd now)⟩,
         .ok true)) ∧
    Good pw salt0 (save st fs now n).1 (save st fs now n).2.1 := by
  obtain ⟨hpw, hlock, hkey, vd, nonce, hvd, hfs⟩ := hg
  have h := save_eq vd (deriveKey pw salt0)
    ⟨salt0, nonce, aesgcmEncrypt (deriveKey pw salt0) nonce vd⟩ hlock hvd hkey hfs now n
  refine ⟨⟨vd, hvd, h⟩, ?_⟩
  rw [h]
  exact ⟨hpw, hlock, hkey, _, n, rfl, rfl⟩

/-- `create` establishes the invariant with the fresh salt and an empty
entry list. -/
theorem create_good (pw : String) (t0 : Int) (salt0 n0 : Nat) :
    (create (init pw) t0 salt0 n0).2.2 = .ok true ∧
    Good pw salt0 (create (init pw) t0 salt0 n0).1 (create (init pw) t0 salt0 n0).2.1 ∧
    (create (init pw) t0 salt0 n0).1.vaultData =
      some { version := 2, entries := [], created := t0, last_modified := t0 } := by
  refine ⟨rfl, ⟨rfl, rfl, rfl, ?_⟩, rfl⟩
  exact ⟨_, n0, rfl, rfl⟩

/-- A successful `add_credential` under the invariant: appends the stored
entry, saves (stamping `last_modified` and re-encrypting under the same
salt with the given fresh nonce), and returns the stored entry. -/
theorem add_credential_of_good {pw : String} {salt0 : Nat} {st : VaultState}
    {fs : FileState} {vd : VaultContent}
    (hg : Good pw salt0 st fs) (hvd : st.vaultData = some vd)
    (input : Entry) (ttl : Option Int) (now : Int) (n : Nat)
    (hserv : ¬ pyStrip input.service = "") :
    add_credential st fs input ttl now n =
      ({ st with vaultData := some (afterAdd vd (storedEntry input ttl now) now) },
       .present ⟨salt0, n, aesgcmEncrypt (deriveKey pw salt0) n
          (afterAdd vd (storedEntry input ttl now) now)⟩,
       .ok (storedEntry input ttl now)) := by
  obtain ⟨hpw, hlock, hkey, vd', nonce, hvd', hfs⟩ := hg
  have hvdeq : vd' = vd := by rw [hvd] at hvd'; exact (Option.some_inj.mp hvd').symm
  subst hvdeq
  have hsave := @save_eq { st with vaultData := some (withEntries vd' (vd'.entries ++ [storedEntry input ttl now])) } fs (withEntries vd' (vd'.entries ++ [storedEntry input ttl now])) (deriveKey pw salt0) ⟨salt0, nonce, aesgcmEncrypt (deriveKey pw salt0) nonce vd'⟩ hlock rfl hkey hfs now n
  simp only [withEntries] at hsave
  rw [hlock] at hsave
  simp only [add_credential, hlock, Bool.false_eq_true, if_false, hserv, if_false, hvd']
  rw [hsave]
  simp [afterAdd, stamped, withEntries]

/-- Invariant preservation for `add_credential`. -/
theorem add_credential_good {pw : String} {salt0 : Nat} {st : VaultState}
    {fs : FileState} {vd : VaultContent}
    (hg : Good pw salt0 st fs) (hvd : st.vaultData = some vd)
    (input : Entry) (ttl : Option Int) (now : Int) (n : Nat)
    (hserv : ¬ pyStrip input.service = "") :
    Good pw salt0 (add_credential st fs input ttl now n).1
      (add_credential st fs input ttl now n).2.1 := by
  rw [add_credential_of_good hg hvd input ttl now n hserv]
  obtain ⟨hpw, hlock, hkey, _, _, _, _⟩ := hg
  exact ⟨hpw, hlock, hkey, _, n, rfl, rfl⟩

/-- Running a sequence of non-empty-service `add_credential` calls under
the invariant succeeds, preserves the invariant, and appends exactly the
stored entries in call order. -/
theorem addAll_good (pw : String) (salt0 : Nat) :
    ∀ (calls : List AddCall) (st : VaultState) (fs : FileState) (vd : VaultContent),
      Good pw salt0 st fs → st.vaultData = some vd →
      (∀ c ∈ calls, ¬ pyStrip c.input.service = "") →
      (addAll st fs calls).2.2 = .ok () ∧
      Good pw salt0 (addAll st fs calls).1 (addAll st fs calls).2.1 ∧
      ∃ vd2, (addAll st fs calls).1.vaultData = some vd2 ∧
        vd2.entries = vd.entries ++
          calls.map (fun c => storedEntry c.input c.ttl_seconds c.now)
  | [], st, fs, vd, hg, hvd, _ => by
      exact ⟨rfl, hg, vd, hvd, by simp⟩
  | c :: rest, st, fs, vd, hg, hvd, hserv => by
      have hserv0 : ¬ pyStrip c.input.service = "" := hserv c (List.mem_cons_self c rest)
      have hadd := add_credential_of_good hg hvd c.input c.ttl_seconds c.now c.freshNonce hserv0
      have hgood2 := add_credential_good hg hvd c.input c.ttl_seconds c.now c.freshNonce hserv0
      rw [hadd] at hgood2
      have hrest := addAll_good pw salt0 rest _ _
        (afterAdd vd (storedEntry c.input c.ttl_seconds c.now) c.now)
        hgood2 rfl (fun d hd => hserv d (List.mem_cons_of_mem c hd))
      simp only [addAll, hadd]
      obtain ⟨h1, h2, vd2, h3, h4⟩ := hrest
      refine ⟨h1, h2, vd2, h3, ?_⟩
      rw [h4]
      simp [afterAdd, stamped, withEntries, List.append_assoc]

/-- Unlocking a state holding password `pw` against a file that is the
honest encryption of a document under the key derived from `pw` and the
file's salt loads that document. -/
theorem unlock_present (pw : String) (salt0 nonce : Nat) (vd : VaultContent)
    (st : VaultState) (hpw : st.masterPassword = pw) :
    unlock st (.present ⟨salt0, nonce, aesgcmEncrypt (deriveKey pw salt0) nonce vd⟩) =
      ({ st with masterKey := some (deriveKey pw salt0),
                 vaultData := some vd, lockedFlag := false },
       .ok true) := by
  simp [unlock, aesgcmDecrypt, aesgcmEncrypt, hpw]

/-- `add_credential` never rewrites the caller's `service` field. -/
theorem storedEntry_service (input : Entry) (ttl : Option Int) (now : Int) :
    (storedEntry input ttl now).service = input.service := by
  cases ttl <;> cases h : input.created_at <;> simp [storedEntry, h]

/-- Running a sequence of `save` calls under the invariant succeeds,
preserves the invariant, and leaves a file whose salt is still the
creation salt and whose nonce is the last call's fresh nonce. -/
theorem applySaves_good (pw : String) (salt0 : Nat) :
    ∀ (calls : List (Int × Nat)) (st : VaultState) (fs : FileState),
      Good pw salt0 st fs →
      (applySaves st fs calls).2.2 = .ok () ∧
      Good pw salt0 (applySaves st fs calls).1 (applySaves st fs calls).2.1 ∧
      ∀ c : Int × Nat, calls.getLast? = some c →
        ∃ vd2, (applySaves st fs calls).2.1 =
          .present ⟨salt0, c.2, aesgcmEncrypt (deriveKey pw salt0) c.2 vd2⟩
  | [], st, fs, hg => ⟨rfl, hg, fun c hc => by simp at hc⟩
  | c :: rest, st, fs, hg => by
      obtain ⟨⟨vd, hvd, hsave⟩, hgood2⟩ := save_of_good hg c.1 c.2
      rw [hsave] at hgood2
      have ih := applySaves_good pw salt0 rest _ _ hgood2
      have hunfold : applySaves st fs (c :: rest) =
          applySaves { st with vaultData := some (stamped vd c.1) }
            (.present ⟨salt0, c.2, aesgcmEncrypt (deriveKey pw salt0) c.2 (stamped vd c.1)⟩)
            rest := by
        simp only [applySaves, hsave]
      rw [hunfold]
      refine ⟨ih.1, ih.2.1, ?_⟩
      intro d hd
      cases rest with
      | nil =>
          simp only [List.getLast?_singleton, Option.some_inj] at hd
          subst hd
          exact ⟨stamped vd c.1, rfl⟩
      | cons r rs =>
          rw [List.getLast?_cons_cons] at hd
          exact ih.2.2 d hd

/-- `listScan` without `include_expired` returns every service name in
order when every entry evaluates as not expired. -/
theorem listScan_all_fresh (now : Int) :
    ∀ (es : List Entry), (∀ e ∈ es, isEntryExpired e now = .ok false) →
      listScan now false es = .ok (es.map Entry.service)
  | [], _ => rfl
  | e :: rest, h => by
      have h0 := h e (List.mem_cons_self e rest)
      have hr := listScan_all_fresh now rest (fun x hx => h x (List.mem_cons_of_mem e hx))
      simp [listScan, h0, hr]

/-- C1 (amended): create a vault with password P, perform any sequence of
successful `add_credential` calls, `lock()`, then `unlock()` with the
same P.  The adds and the unlock succeed, and — provided every stored
entry still evaluates as not expired at the time of the final `list()`
(in particular whenever no added entry carries a `ttl_seconds` or an
explicit `expires_at`) — `list_services` returns the same N service
names in insertion order. -/
theorem c1_round_trip_amended (pw : String) (t0 T : Int) (salt0 n0 : Nat)
    (calls : List AddCall)
    (hserv : ∀ c ∈ calls, ¬ pyStrip c.input.service = "")
    (hfresh : ∀ c ∈ calls,
      isEntryExpired (storedEntry c.input c.ttl_seconds c.now) T = .ok false) :
    (roundTrip pw t0 salt0 n0 calls).2.2.1 = .ok () ∧
    (roundTrip pw t0 salt0 n0 calls).2.2.2 = .ok true ∧
    list_services (roundTrip pw t0 salt0 n0 calls).1 false T =
      .ok (calls.map fun c => c.input.service) := by
  obtain ⟨-, hcg, hcvd⟩ := create_good pw t0 salt0 n0
  obtain ⟨haok, hag, vd2, hvd2, hents⟩ :=
    addAll_good pw salt0 calls (create (init pw) t0 salt0 n0).1
      (create (init pw) t0 salt0 n0).2.1 _ hcg hcvd hserv
  obtain ⟨hpw2, hlock2, hkey2, vd3, nonce3, hvd3, hfs3⟩ := hag
  rw [hvd2] at hvd3
  have hvd23 : vd2 = vd3 := Option.some_inj.mp hvd3
  subst hvd23
  have hlpw : (lock (addAll (create (init pw) t0 salt0 n0).1
      (create (init pw) t0 salt0 n0).2.1 calls).1).masterPassword = pw := hpw2
  have hu := unlock_present pw salt0 nonce3 vd2 _ hlpw
  simp only [roundTrip]
  refine ⟨haok, ?_, ?_⟩
  · rw [hfs3, hu]
  · rw [hfs3, hu]
    have hall : ∀ e ∈ vd2.entries, isEntryExpired e T = .ok false := by
      intro e he
      rw [hents] at he
      simp only [List.mem_append, List.mem_map] at he
      rcases he with he0 | ⟨c, hc, rfl⟩
      · exact absurd he0 (List.not_mem_nil e)
      · exact hfresh c hc
    show list_services _ false T = _
    simp only [list_services]
    rw [listScan_all_fresh T vd2.entries hall, hents]
    simp only [List.map_append, List.map_map]
    have hmap : calls.map (Entry.service ∘ fun c => storedEntry c.input c.ttl_seconds c.now)
        = calls.map fun c => c.input.service := by
      apply List.map_congr_left
      intro c _
      simp [Function.comp, storedEntry_service]
    rw [hmap]
    simp

/-- C1 counterexample: the claim as stated fails on the code — the entry
`{service := "otp", ttl_seconds := 0}` is added successfully, yet after
lock and unlock with the same password `list()` returns no names instead
of the one added name, because the entry is already expired. -/
theorem c1_counterexample :
    (roundTrip "p" 0 0 0 [⟨⟨"otp", .absent, none, none, none, []⟩, some 0, 0, 1⟩]).2.2.1
        = .ok () ∧
    (roundTrip "p" 0 0 0 [⟨⟨"otp", .absent, none, none, none, []⟩, some 0, 0, 1⟩]).2.2.2
        = .ok true ∧
    list_services
        (roundTrip "p" 0 0 0 [⟨⟨"otp", .absent, none, none, none, []⟩, some 0, 0, 1⟩]).1
        false 0 = .ok [] ∧
    ([] : List String) ≠ ["otp"] := by
  exact ⟨rfl, rfl, rfl, by decide⟩

/-- Witness for `c1_round_trip_amended`: two ttl-free entries survive the
round trip and `list()` returns both names in insertion order. -/
theorem c1_round_trip_amended_witness :
    (roundTrip "p" 0 5 7 [⟨⟨"a", .absent, none, none, none, []⟩, none, 1, 1⟩,
        ⟨⟨"b", .absent, none, none, none, []⟩, none, 2, 2⟩]).2.2.1 = .ok () ∧
    (roundTrip "p" 0 5 7 [⟨⟨"a", .absent, none, none, none, []⟩, none, 1, 1⟩,
        ⟨⟨"b", .absent, none, none, none, []⟩, none, 2, 2⟩]).2.2.2 = .ok true ∧
    list_services (roundTrip "p" 0 5 7 [⟨⟨"a", .absent, none, none, none, []⟩, none, 1, 1⟩,
        ⟨⟨"b", .absent, none, none, none, []⟩, none, 2, 2⟩]).1 false 9 =
      .ok ["a", "b"] := by
  exact c1_round_trip_amended "p" 0 9 5 7
    [⟨⟨"a", .absent, none, none, none, []⟩, none, 1, 1⟩,
     ⟨⟨"b", .absent, none, none, none, []⟩, none, 2, 2⟩]
    (by decide) (by decide)

/-- C3: every successful `save` on an unlocked vault rewrites the file
with the salt the file already carried and exactly the fresh nonce
generated for that save; and starting from `create` (which writes the
creation salt) any sequence of saves succeeds, keeps the creation salt in
the salt position, and leaves the last save's fresh nonce in the nonce
position. -/
theorem c3_salt_fixed_nonce_fresh (pw : String) (t0 : Int) (salt0 n0 : Nat)
    (calls : List (Int × Nat)) :
    (∀ (st : VaultState) (fs : FileState) (vd : VaultContent) (key : Key)
        (f : VaultFile) (now : Int) (n : Nat),
      st.lockedFlag = false → st.vaultData = some vd → st.masterKey = some key →
      fs = .present f →
      save st fs now n =
        ({ st with vaultData := some (stamped vd now) },
         .present ⟨f.salt, n, aesgcmEncrypt key n (stamped vd now)⟩, .ok true)) ∧
    (applySaves (create (init pw) t0 salt0 n0).1
        (create (init pw) t0 salt0 n0).2.1 calls).2.2 = .ok () ∧
    (∃ f, (applySaves (create (init pw) t0 salt0 n0).1
        (create (init pw) t0 salt0 n0).2.1 calls).2.1 = .present f ∧ f.salt = salt0) ∧
    (∀ c : Int × Nat, calls.getLast? = some c →
      ∃ vd2, (applySaves (create (init pw) t0 salt0 n0).1
          (create (init pw) t0 salt0 n0).2.1 calls).2.1 =
        .present ⟨salt0, c.2, aesgcmEncrypt (deriveKey pw salt0) c.2 vd2⟩) := by
  obtain ⟨-, hcg, -⟩ := create_good pw t0 salt0 n0
  obtain ⟨hok, hg2, hlast⟩ := applySaves_good pw salt0 calls _ _ hcg
  refine ⟨fun st fs vd key f now n h1 h2 h3 h4 => save_eq vd key f h1 h2 h3 h4 now n,
    hok, ?_, hlast⟩
  obtain ⟨-, -, -, vdx, noncex, -, hfsx⟩ := hg2
  exact ⟨_, hfsx, rfl⟩

/-- Witness for `c3_salt_fixed_nonce_fresh`: after creating with salt 3
and saving twice, the file still carries salt 3 and the second save's
fresh nonce 9. -/
theorem c3_salt_fixed_nonce_fresh_witness :
    ∃ vd2, (applySaves (create (init "p") 0 3 5).1
        (create (init "p") 0 3 5).2.1 [(1, 7), (2, 9)]).2.1 =
      .present ⟨3, 9, aesgcmEncrypt (deriveKey "p" 3) 9 vd2⟩ :=
  (c3_salt_fixed_nonce_fresh "p" 0 3 5 [(1, 7), (2, 9)]).2.2.2 (2, 9) rfl

/-- C2 (amended): whenever `unlock` fails — missing file, too-short file,
wrong password, or tampered ciphertext — it raises the uniform
"failed to unlock (wrong password?)" authentication error, and neither
the locked flag nor the decrypted content changes: a locked vault stays
locked and nothing is loaded.  (The unamended "no in-memory vault state
is changed" is refuted by `c2_counterexample`: the failed attempt
overwrites the stored derived-key field.) -/
theorem c2_unlock_failure_atomic (st : VaultState) (fs : FileState) (e : VErr)
    (h : (unlock st fs).2 = .error e) :
    (unlock st fs).1.lockedFlag = st.lockedFlag ∧
    (unlock st fs).1.vaultData = st.vaultData ∧
    ∃ inner, e = .unlockFailed inner := by
  cases fs with
  | absent => exact ⟨rfl, rfl, _, (Except.error.inj h).symm⟩
  | tooShort j => exact ⟨rfl, rfl, _, (Except.error.inj h).symm⟩
  | present f =>
      simp only [unlock] at h ⊢
      cases hd : aesgcmDecrypt (deriveKey st.masterPassword f.salt) f.nonce f.ciphertext with
      | error e2 =>
          rw [hd] at h
          exact ⟨rfl, rfl, _, (Except.error.inj h).symm⟩
      | ok c =>
          rw [hd] at h
          exact Except.noConfusion h

/-- Witness for `c2_unlock_failure_atomic`: unlocking with no vault file
fails and leaves the locked flag and (absent) content untouched. -/
theorem c2_unlock_failure_atomic_witness :
    (unlock (init "q") .absent).1.lockedFlag = (init "q").lockedFlag ∧
    (unlock (init "q") .absent).1.vaultData = (init "q").vaultData ∧
    ∃ inner, (VErr.unlockFailed .fileNotFound) = .unlockFailed inner :=
  c2_unlock_failure_atomic (init "q") .absent (.unlockFailed .fileNotFound) rfl

/-- C2 counterexample: the claim as stated fails — a wrong-password
unlock on a freshly initialised (locked, key-free) vault object raises,
but mutates the in-memory state: the `master_key` field is overwritten
with the key derived from the attempted password. -/
theorem c2_counterexample :
    (∃ e, (unlock (init "q")
        (.present ⟨5, 7, aesgcmEncrypt (deriveKey "p" 5) 7 ⟨2, [], 0, 0⟩⟩)).2
        = .error e) ∧
    (init "q").masterKey = none ∧
    (unlock (init "q")
        (.present ⟨5, 7, aesgcmEncrypt (deriveKey "p" 5) 7 ⟨2, [], 0, 0⟩⟩)).1.masterKey
      = some (deriveKey "q" 5) ∧
    (unlock (init "q")
        (.present ⟨5, 7, aesgcmEncrypt (deriveKey "p" 5) 7 ⟨2, [], 0, 0⟩⟩)).1
      ≠ init "q" := by
  refine ⟨⟨.unlockFailed .decryptFailed, rfl⟩, rfl, rfl, by decide⟩

/-- C4: while the vault is not unlocked, every entry operation — add,
update, get, get_fields, delete, purge_expired — raises the
"vault is locked" error for every argument, while `list_services`
returns the empty sequence instead of raising. -/
theorem c4_locked_guard (st : VaultState) (fs : FileState)
    (h : st.lockedFlag = true) (svc : String) (input : Entry)
    (ttl : Option Int) (u : UpdateData) (now : Int) (n : Nat)
    (purge inc : Bool) :
    (add_credential st fs input ttl now n).2.2 = .error .vaultLocked ∧
    (update_credential st fs svc u now n).2.2 = .error .vaultLocked ∧
    (get_credential st fs svc purge now n).2.2 = .error .vaultLocked ∧
    get_service_fields st svc now = .error .vaultLocked ∧
    (delete_credential st fs svc now n).2.2 = .error .vaultLocked ∧
    (purge_expired st fs now n).2.2 = .error .vaultLocked ∧
    list_services st inc now = .ok [] := by
  refine ⟨?_, ?_, ?_, ?_, ?_, ?_, ?_⟩ <;>
    simp [add_credential, update_credential, get_credential, get_service_fields,
      delete_credential, purge_expired, list_services, h]

/-- With `ttl_seconds` supplied, the stored `expires_at` is the absolute
timestamp `now + ttl`. -/
theorem storedEntry_expires_some (input : Entry) (t : Int) (now : Int) :
    (storedEntry input (some t) now).expires_at = .validTS (now + t) := by
  cases h : input.created_at <;> simp [storedEntry, h]

/-- C5: `add_credential` with `ttl_seconds = t` stores
`expires_at = now + t` as an absolute timestamp, and with `t ≤ 0` the
stored entry is already expired at the add time and any later time; a
subsequent `get` of that service with the purge flag set removes the
entry, persists the shrunken vault, and returns "not found" (`none`). -/
theorem c5_ttl_expiry (pw : String) (t0 now1 now2 t : Int) (salt0 n0 n1 n2 : Nat)
    (input : Entry) (hserv : ¬ pyStrip input.service = "")
    (httl : t ≤ 0) (hle : now1 ≤ now2) :
    (∀ (anyInput : Entry) (anyTtl anyNow : Int),
      (storedEntry anyInput (some anyTtl) anyNow).expires_at =
        .validTS (anyNow + anyTtl)) ∧
    isEntryExpired (storedEntry input (some t) now1) now2 = .ok true ∧
    (addThenGet pw t0 salt0 n0 input (some t) now1 n1 now2 n2).1.2.2 =
      .ok (storedEntry input (some t) now1) ∧
    (addThenGet pw t0 salt0 n0 input (some t) now1 n1 now2 n2).2.2.2 = .ok none ∧
    (∃ vd2, (addThenGet pw t0 salt0 n0 input (some t) now1 n1 now2 n2).2.1.vaultData
        = some vd2 ∧ vd2.entries = [] ∧
      (addThenGet pw t0 salt0 n0 input (some t) now1 n1 now2 n2).2.2.1 =
        .present ⟨salt0, n2, aesgcmEncrypt (deriveKey pw salt0) n2 vd2⟩) := by
  obtain ⟨-, hcg, hcvd⟩ := create_good pw t0 salt0 n0
  have hadd := add_credential_of_good hcg hcvd input (some t) now1 n1 hserv
  have hexp : isEntryExpired (storedEntry input (some t) now1) now2 = .ok true := by
    simp [isEntryExpired, storedEntry_expires_some, decide_eq_true_eq]
    omega
  have hmatch : serviceMatch (storedEntry input (some t) now1) input.service = true := by
    simp [serviceMatch, storedEntry_service]
  refine ⟨fun a b c => storedEntry_expires_some a b c, hexp, ?_, ?_, ?_⟩
  · simp only [addThenGet]
    rw [hadd]
  · simp only [addThenGet]
    rw [hadd]
    simp [get_credential, create, init, getScan, hmatch, hexp, afterAdd, stamped,
      withEntries, save, aesgcmEncrypt]
  · simp only [addThenGet]
    rw [hadd]
    refine ⟨stamped (withEntries (afterAdd ⟨2, [], t0, t0⟩
        (storedEntry input (some t) now1) now1) []) now2, ?_, rfl, ?_⟩ <;>
      simp [get_credential, create, init, getScan, hmatch, hexp, afterAdd, stamped,
        withEntries, save, aesgcmEncrypt]

/-- Witness for `c5_ttl_expiry`: a `ttl_seconds = 0` entry added at time 1
is expired at time 2; the purging `get` removes it and reports
"not found". -/
theorem c5_ttl_expiry_witness :
    (∀ (anyInput : Entry) (anyTtl anyNow : Int),
      (storedEntry anyInput (some anyTtl) anyNow).expires_at =
        .validTS (anyNow + anyTtl)) ∧
    isEntryExpired (storedEntry ⟨"otp", .absent, none, none, none, []⟩ (some 0) 1) 2
        = .ok true ∧
    (addThenGet "p" 0 3 4 ⟨"otp", .absent, none, none, none, []⟩ (some 0) 1 5 2 6).1.2.2
        = .ok (storedEntry ⟨"otp", .absent, none, none, none, []⟩ (some 0) 1) ∧
    (addThenGet "p" 0 3 4 ⟨"otp", .absent, none, none, none, []⟩ (some 0) 1 5 2 6).2.2.2
        = .ok none ∧
    (∃ vd2, (addThenGet "p" 0 3 4 ⟨"otp", .absent, none, none, none, []⟩
          (some 0) 1 5 2 6).2.1.vaultData = some vd2 ∧ vd2.entries = [] ∧
      (addThenGet "p" 0 3 4 ⟨"otp", .absent, none, none, none, []⟩ (some 0) 1 5 2 6).2.2.1
        = .present ⟨3, 6, aesgcmEncrypt (deriveKey "p" 3) 6 vd2⟩) :=
  c5_ttl_expiry "p" 0 1 2 0 3 4 5 6 ⟨"otp", .absent, none, none, none, []⟩
    (by decide) (by decide) (by decide)

/-- The only error `_is_entry_expired` can raise is the malformed
`expires_at` validation error for that entry's service. -/
theorem isEntryExpired_error (e : Entry) (now : Int) (err : VErr)
    (h : isEntryExpired e now = .error err) :
    err = .malformedExpiresAt e.service := by
  cases hx : e.expires_at <;> simp [isEntryExpired, hx] at h
  exact h.symm

/-- An entry is always a case-insensitive match for its own service. -/
theorem serviceMatch_self (e : Entry) : serviceMatch e e.service = true := by
  simp [serviceMatch]

/-- A malformed entry anywhere in the list makes the `list_services` loop
raise the malformed-`expires_at` error. -/
theorem listScan_malformed (now : Int) :
    ∀ (es : List Entry) (e : Entry), e ∈ es → e.expires_at = .malformedTS →
      IsMalformedFailure (listScan now false es)
  | e0 :: rest, e, he, hm => by
      rcases List.mem_cons.mp he with rfl | hmem
      · exact ⟨e.service, by simp [listScan, isEntryExpired, hm]⟩
      · cases hex : isEntryExpired e0 now with
        | error err =>
            refine ⟨e0.service, ?_⟩
            rw [isEntryExpired_error e0 now err hex] at hex
            simp [listScan, hex]
        | ok b =>
            obtain ⟨s, hs⟩ := listScan_malformed now rest e hmem hm
            cases b <;> exact ⟨s, by simp [listScan, hex, hs]⟩

/-- A malformed entry anywhere in the list makes the `purge_expired`
sweep raise the malformed-`expires_at` error. -/
theorem purgeScan_malformed (now : Int) :
    ∀ (es : List Entry) (e : Entry), e ∈ es → e.expires_at = .malformedTS →
      IsMalformedFailure (purgeScan now es)
  | e0 :: rest, e, he, hm => by
      rcases List.mem_cons.mp he with rfl | hmem
      · exact ⟨e.service, by simp [purgeScan, isEntryExpired, hm]⟩
      · cases hex : isEntryExpired e0 now with
        | error err =>
            refine ⟨e0.service, ?_⟩
            rw [isEntryExpired_error e0 now err hex] at hex
            simp [purgeScan, hex]
        | ok b =>
            obtain ⟨s, hs⟩ := purgeScan_malformed now rest e hmem hm
            cases b <;> exact ⟨s, by simp [purgeScan, hex, hs]⟩

/-- When the first case-insensitive match is malformed, the `get` lookup
loop raises the malformed-`expires_at` error. -/
theorem getScan_malformed (now : Int) (e : Entry) (hm : e.expires_at = .malformedTS) :
    ∀ (pre post : List Entry), (∀ p ∈ pre, serviceMatch p e.service = false) →
      getScan e.service now (pre ++ e :: post) = .error (.malformedExpiresAt e.service)
  | [], post, _ => by
      simp [getScan, serviceMatch_self e, isEntryExpired, hm]
  | p0 :: pre, post, hpre => by
      have h0 := hpre p0 (List.mem_cons_self p0 pre)
      have hrec := getScan_malformed now e hm pre post
        (fun p hp => hpre p (List.mem_cons_of_mem p0 hp))
      simp [getScan, h0, hrec]

/-- When the first case-insensitive match is malformed, the
`get_service_fields` lookup loop raises the malformed-`expires_at`
error. -/
theorem fieldsScan_malformed (now : Int) (e : Entry) (hm : e.expires_at = .malformedTS) :
    ∀ (pre post : List Entry), (∀ p ∈ pre, serviceMatch p e.service = false) →
      fieldsScan e.service now (pre ++ e :: post) = .error (.malformedExpiresAt e.service)
  | [], post, _ => by
      simp [fieldsScan, serviceMatch_self e, isEntryExpired, hm]
  | p0 :: pre, post, hpre => by
      have h0 := hpre p0 (List.mem_cons_self p0 pre)
      have hrec := fieldsScan_malformed now e hm pre post
        (fun p hp => hpre p (List.mem_cons_of_mem p0 hp))
      simp [fieldsScan, h0, hrec]

/-- When the first case-insensitive match is malformed, the
`update_credential` lookup loop raises the malformed-`expires_at`
error. -/
theorem updateScan_malformed (u : UpdateData) (now : Int) (e : Entry)
    (hm : e.expires_at = .malformedTS) :
    ∀ (pre post : List Entry), (∀ p ∈ pre, serviceMatch p e.service = false) →
      updateScan e.service u now (pre ++ e :: post) =
        .error (.malformedExpiresAt e.service)
  | [], post, _ => by
      simp [updateScan, serviceMatch_self e, isEntryExpired, hm]
  | p0 :: pre, post, hpre => by
      have h0 := hpre p0 (List.mem_cons_self p0 pre)
      have hrec := updateScan_malformed u now e hm pre post
        (fun p hp => hpre p (List.mem_cons_of_mem p0 hp))
      simp [updateScan, h0, hrec]

/-- C6: for every entry whose `expires_at` is present but unparsable,
every operation that evaluates that entry's expiry raises the
malformed-`expires_at` validation error instead of treating the entry as
expired or valid: `list` and `purge_expired` whenever the entry is in the
vault, and `get`, `get_fields` and `update` whenever the entry is the
first case-insensitive match for the queried service. -/
theorem c6_malformed_hard_failure (st : VaultState) (fs : FileState)
    (vd : VaultContent) (hlock : st.lockedFlag = false)
    (hvd : st.vaultData = some vd) (e : Entry) (hm : e.expires_at = .malformedTS)
    (now : Int) (n : Nat) (u : UpdateData) (purge : Bool) :
    (e ∈ vd.entries →
      IsMalformedFailure (list_services st false now) ∧
      IsMalformedFailure (purge_expired st fs now n).2.2) ∧
    (∀ pre post, vd.entries = pre ++ e :: post →
      (∀ p ∈ pre, serviceMatch p e.service = false) →
      IsMalformedFailure (get_credential st fs e.service purge now n).2.2 ∧
      IsMalformedFailure (get_service_fields st e.service now) ∧
      (u.service = none →
        IsMalformedFailure (update_credential st fs e.service u now n).2.2)) := by
  constructor
  · intro hmem
    constructor
    · obtain ⟨s, hs⟩ := listScan_malformed now vd.entries e hmem hm
      exact ⟨s, by simp [list_services, hlock, hvd, hs]⟩
    · obtain ⟨s, hs⟩ := purgeScan_malformed now vd.entries e hmem hm
      exact ⟨s, by simp [purge_expired, hlock, hvd, hs]⟩
  · intro pre post hsplit hpre
    have hget := getScan_malformed now e hm pre post hpre
    have hfields := fieldsScan_malformed now e hm pre post hpre
    refine ⟨⟨e.service, by simp [get_credential, hlock, hvd, hsplit, hget]⟩,
      ⟨e.service, by simp [get_service_fields, hlock, hvd, hsplit, hfields]⟩, ?_⟩
    intro husvc
    have hupd := updateScan_malformed u now e hm pre post hpre
    exact ⟨e.service,
      by simp [update_credential, hlock, hvd, hsplit, hupd, husvc]⟩

/-- Witness for `c6_malformed_hard_failure`: a vault holding one entry
with an unparsable `expires_at` makes list, purge, get, get_fields and
update all raise the validation error. -/
theorem c6_malformed_hard_failure_witness :
    IsMalformedFailure (list_services ⟨"p", some (deriveKey "p" 0),
      some ⟨2, [⟨"bad", .malformedTS, none, none, none, []⟩], 0, 0⟩, false⟩ false 0) ∧
    IsMalformedFailure (purge_expired ⟨"p", some (deriveKey "p" 0),
      some ⟨2, [⟨"bad", .malformedTS, none, none, none, []⟩], 0, 0⟩, false⟩
      .absent 0 0).2.2 ∧
    IsMalformedFailure (get_credential ⟨"p", some (deriveKey "p" 0),
      some ⟨2, [⟨"bad", .malformedTS, none, none, none, []⟩], 0, 0⟩, false⟩
      .absent "bad" true 0 0).2.2 ∧
    IsMalformedFailure (get_service_fields ⟨"p", some (deriveKey "p" 0),
      some ⟨2, [⟨"bad", .malformedTS, none, none, none, []⟩], 0, 0⟩, false⟩ "bad" 0) ∧
    IsMalformedFailure (update_credential ⟨"p", some (deriveKey "p" 0),
      some ⟨2, [⟨"bad", .malformedTS, none, none, none, []⟩], 0, 0⟩, false⟩
      .absent "bad" ⟨none, none, none, []⟩ 0 0).2.2 := by
  have h := c6_malformed_hard_failure ⟨"p", some (deriveKey "p" 0),
      some ⟨2, [⟨"bad", .malformedTS, none, none, none, []⟩], 0, 0⟩, false⟩ .absent
      ⟨2, [⟨"bad", .malformedTS, none, none, none, []⟩], 0, 0⟩ rfl rfl
      ⟨"bad", .malformedTS, none, none, none, []⟩ rfl 0 0 ⟨none, none, none, []⟩ true
  have h1 := h.1 (by simp)
  have h2 := h.2 [] [] rfl (by simp)
  exact ⟨h1.1, h1.2, h2.1, h2.2.1, h2.2.2 rfl⟩

/-- C7: `delete_credential` on an unlocked healthy vault removes all
case-insensitive matches (not only the first), persists (re-encrypts and
rewrites the file) exactly when at least one entry was removed, and
returns whether any removal occurred; deleting a service with no match
returns `false` without raising and leaves both state and file exactly
as they were. -/
theorem c7_delete (pw : String) (salt0 : Nat) (st : VaultState) (fs : FileState)
    (vd : VaultContent) (hg : Good pw salt0 st fs) (hvd : st.vaultData = some vd)
    (svc : String) (now : Int) (n : Nat) :
    (delete_credential st fs svc now n).2.2 =
      .ok (vd.entries.any fun e => serviceMatch e svc) ∧
    (∃ vd2, (delete_credential st fs svc now n).1.vaultData = some vd2 ∧
      vd2.entries = vd.entries.filter fun e => !(serviceMatch e svc)) ∧
    ((vd.entries.any fun e => serviceMatch e svc) = true →
      (delete_credential st fs svc now n).2.1 =
        .present ⟨salt0, n, aesgcmEncrypt (deriveKey pw salt0) n
          (stamped (withEntries vd
            (vd.entries.filter fun e => !(serviceMatch e svc))) now)⟩) ∧
    ((vd.entries.any fun e => serviceMatch e svc) = false →
      delete_credential st fs svc now n = (st, fs, .ok false)) := by
  obtain ⟨hpw, hlock, hkey, vd', nonce, hvd', hfs⟩ := hg
  have hvdeq : vd' = vd := by rw [hvd] at hvd'; exact (Option.some_inj.mp hvd').symm
  subst hvdeq
  have hlen : ((vd'.entries.filter fun e => !(serviceMatch e svc)).length
      < vd'.entries.length) ↔ (vd'.entries.any fun e => serviceMatch e svc) = true := by
    rw [List.length_filter_lt_length_iff_exists, List.any_eq_true]
    simp
  cases hany : vd'.entries.any fun e => serviceMatch e svc with
  | true =>
      have hlt := hlen.mpr hany
      have hsave := @save_eq
        { st with vaultData := some (withEntries vd'
            (vd'.entries.filter fun e => !(serviceMatch e svc))) } fs
        (withEntries vd' (vd'.entries.filter fun e => !(serviceMatch e svc)))
        (deriveKey pw salt0)
        ⟨salt0, nonce, aesgcmEncrypt (deriveKey pw salt0) nonce vd'⟩
        hlock rfl hkey hfs now n
      simp only [withEntries] at hsave
      rw [hlock] at hsave
      have hdel : delete_credential st fs svc now n =
          ({ st with vaultData := some (stamped (withEntries vd'
              (vd'.entries.filter fun e => !(serviceMatch e svc))) now) },
           .present ⟨salt0, n, aesgcmEncrypt (deriveKey pw salt0) n
              (stamped (withEntries vd'
                (vd'.entries.filter fun e => !(serviceMatch e svc))) now)⟩,
           .ok true) := by
        simp only [delete_credential, hlock, Bool.false_eq_true, if_false, hvd',
          hlt, if_true]
        rw [hsave]
        rfl
      rw [hdel]
      refine ⟨rfl, ⟨_, rfl, rfl⟩, fun _ => rfl, fun habs => absurd habs (by simp)⟩
  | false =>
      have hnlt : ¬ ((vd'.entries.filter fun e => !(serviceMatch e svc)).length
          < vd'.entries.length) := fun hlt => by rw [hlen.mp hlt] at hany; cases hany
      have hfeq : (vd'.entries.filter fun e => !(serviceMatch e svc)) = vd'.entries := by
        rw [List.filter_eq_self]
        intro a ha
        have := List.any_eq_false.mp hany a ha
        simp [this]
      have hdel : delete_credential st fs svc now n = (st, fs, .ok false) := by
        simp only [delete_credential, hlock, Bool.false_eq_true, if_false, hvd',
          hnlt, if_false]
        rw [hfeq, ← hvd', ← hlock]
      rw [hdel]
      exact ⟨rfl, ⟨vd', hvd', hfeq.symm⟩, fun habs => absurd habs (by simp),
        fun _ => rfl⟩

/-- Witness for `c7_delete`: deleting "GIT" removes both the "Git" and
"git" entries and returns true. -/
theorem c7_delete_witness :
    (delete_credential ⟨"p", some (deriveKey "p" 0), some ⟨2,
        [⟨"Git", .absent, none, none, none, []⟩, ⟨"git", .absent, none, none, none, []⟩],
        0, 0⟩, false⟩
      (.present ⟨0, 1, aesgcmEncrypt (deriveKey "p" 0) 1 ⟨2,
        [⟨"Git", .absent, none, none, none, []⟩, ⟨"git", .absent, none, none, none, []⟩],
        0, 0⟩⟩) "GIT" 2 3).2.2 = .ok true :=
  ((c7_delete "p" 0 ⟨"p", some (deriveKey "p" 0), some ⟨2,
        [⟨"Git", .absent, none, none, none, []⟩, ⟨"git", .absent, none, none, none, []⟩],
        0, 0⟩, false⟩
      (.present ⟨0, 1, aesgcmEncrypt (deriveKey "p" 0) 1 ⟨2,
        [⟨"Git", .absent, none, none, none, []⟩, ⟨"git", .absent, none, none, none, []⟩],
        0, 0⟩⟩)
      ⟨2, [⟨"Git", .absent, none, none, none, []⟩, ⟨"git", .absent, none, none, none, []⟩],
        0, 0⟩
      ⟨rfl, rfl, rfl, ⟨2, [⟨"Git", .absent, none, none, none, []⟩,
        ⟨"git", .absent, none, none, none, []⟩], 0, 0⟩, 1, rfl, rfl⟩
      rfl "GIT" 2 3).1).trans (by decide)

/-- Replacing `"id"` fields does not affect the service comparison. -/
theorem serviceMatch_reid (f : Option Nat → Option Nat) (e : Entry) (svc : String) :
    serviceMatch (reidF f e) svc = serviceMatch e svc := rfl

/-- Replacing `"id"` fields does not affect expiry evaluation. -/
theorem isEntryExpired_reid (f : Option Nat → Option Nat) (e : Entry) (now : Int) :
    isEntryExpired (reidF f e) now = isEntryExpired e now := rfl

/-- The lookup loop of `get_credential` never reads the `"id"` field:
replacing every entry's id transforms the outcome structurally. -/
theorem getScan_reid (f : Option Nat → Option Nat) (svc : String) (now : Int) :
    ∀ es : List Entry,
      getScan svc now (es.map (reidF f)) =
        Except.map (mapGetOutcome (reidF f)) (getScan svc now es)
  | [] => rfl
  | e :: rest => by
      have ih := getScan_reid f svc now rest
      simp only [List.map_cons, getScan, serviceMatch_reid, isEntryExpired_reid, ih]
      cases hm : serviceMatch e svc with
      | false =>
          simp only [hm, Bool.false_eq_true, if_false]
          cases hrest : getScan svc now rest with
          | error err => simp [Except.map]
          | ok o => cases o <;> simp [Except.map, mapGetOutcome]
      | true =>
          simp only [hm, if_true]
          cases hx : isEntryExpired e now with
          | error err => simp [Except.map]
          | ok b => cases b <;> simp [Except.map, mapGetOutcome]

/-- The merge of `update_credential` never touches the `"id"` field, so
it commutes with an id replacement. -/
theorem applyUpdates_reid (f : Option Nat → Option Nat) (e : Entry)
    (u : UpdateData) (now : Int) :
    applyUpdates (reidF f e) u now = reidF f (applyUpdates e u now) := by
  cases hs : u.service <;> cases ht : u.ttl_seconds <;> cases hx : u.expires_at <;>
    simp [applyUpdates, reidF, hs, ht, hx]

/-- The lookup loop of `update_credential` never reads the `"id"` field. -/
theorem updateScan_reid (f : Option Nat → Option Nat) (svc : String)
    (u : UpdateData) (now : Int) :
    ∀ es : List Entry,
      updateScan svc u now (es.map (reidF f)) =
        Except.map (mapUpdOutcome (reidF f)) (updateScan svc u now es)
  | [] => rfl
  | e :: rest => by
      have ih := updateScan_reid f svc u now rest
      simp only [List.map_cons, updateScan, serviceMatch_reid, isEntryExpired_reid,
        ih, applyUpdates_reid]
      cases hm : serviceMatch e svc with
      | false =>
          simp only [hm, Bool.false_eq_true, if_false]
          cases hrest : updateScan svc u now rest with
          | error err => simp [Except.map]
          | ok o => cases o <;> simp [Except.map, mapUpdOutcome]
      | true =>
          simp only [hm, if_true]
          cases hx : isEntryExpired e now with
          | error err => simp [Except.map]
          | ok b => cases b <;> simp [Except.map, mapUpdOutcome]

/-- The key list of an entry is unchanged by an id replacement that
preserves presence. -/
theorem entryKeys_reid (f : Option Nat → Option Nat)
    (hf : ∀ o : Option Nat, (f o).isSome = o.isSome) (e : Entry) :
    entryKeys (reidF f e) = entryKeys e := by
  simp [entryKeys, reidF, hf e.idField]

/-- The lookup loop of `get_service_fields` is unchanged by a
presence-preserving id replacement. -/
theorem fieldsScan_reid (f : Option Nat → Option Nat)
    (hf : ∀ o : Option Nat, (f o).isSome = o.isSome) (svc : String) (now : Int) :
    ∀ es : List Entry,
      fieldsScan svc now (es.map (reidF f)) = fieldsScan svc now es
  | [] => rfl
  | e :: rest => by
      have ih := fieldsScan_reid f hf svc now rest
      simp only [List.map_cons, fieldsScan, serviceMatch_reid, isEntryExpired_reid,
        ih, entryKeys_reid f hf]

/-- The `save` result (third component) depends only on the locked flag,
the key, the presence of a document, and the file — not on the document's
contents. -/
theorem save_result_same (st1 st2 : VaultState) (fs : FileState) (now : Int) (n : Nat)
    (h1 : st1.lockedFlag = st2.lockedFlag) (h2 : st1.masterKey = st2.masterKey)
    (h3 : st1.vaultData.isSome = st2.vaultData.isSome) :
    (save st1 fs now n).2.2 = (save st2 fs now n).2.2 := by
  cases hv1 : st1.vaultData with
  | none =>
      cases hv2 : st2.vaultData with
      | none => simp [save, hv1, hv2]
      | some vd2 => rw [hv1, hv2] at h3; simp at h3
  | some vd1 =>
      cases hv2 : st2.vaultData with
      | none => rw [hv1, hv2] at h3; simp at h3
      | some vd2 =>
          simp only [save, hv1, hv2, h1, h2]
          cases st2.lockedFlag <;> cases hk : st2.masterKey <;> cases fs <;> simp

/-- Filtering out matches commutes with an id replacement. -/
theorem filter_serviceMatch_reid (f : Option Nat → Option Nat) (svc : String) :
    ∀ es : List Entry,
      (es.map (reidF f)).filter (fun e => !(serviceMatch e svc)) =
        (es.filter (fun e => !(serviceMatch e svc))).map (reidF f)
  | [] => rfl
  | e :: rest => by
      have ih := filter_serviceMatch_reid f svc rest
      cases hm : serviceMatch e svc <;>
        simp [List.filter, serviceMatch_reid, hm, ih]

/-- `get_credential` never reads the `"id"` field: replacing every
entry's id changes the result only by the same replacement on the
returned entry. -/
theorem get_credential_reid (f : Option Nat → Option Nat) (st : VaultState)
    (fs : FileState) (svc : String) (purge : Bool) (now : Int) (n : Nat) :
    (get_credential (mapIds f st) fs svc purge now n).2.2 =
      Except.map (Option.map (reidF f)) (get_credential st fs svc purge now n).2.2 := by
  cases hl : st.lockedFlag with
  | true => simp [get_credential, mapIds, hl, Except.map]
  | false =>
      cases hv : st.vaultData with
      | none => simp [get_credential, mapIds, hl, hv, Except.map]
      | some vd =>
          simp only [get_credential, mapIds, hl, hv, Bool.false_eq_true, if_false,
            Option.map_some']
          rw [getScan_reid]
          cases hscan : getScan svc now vd.entries with
          | error err => simp [Except.map]
          | ok o =>
              cases o with
              | notFound => simp [Except.map, mapGetOutcome]
              | found e => simp [Except.map, mapGetOutcome]
              | expiredMatch rem =>
                  cases purge with
                  | false => simp [Except.map, mapGetOutcome]
                  | true =>
                      simp only [Except.map, mapGetOutcome, if_true]
                      have hsame := save_result_same
                        ⟨st.masterPassword, st.masterKey,
                          some ⟨vd.version, rem.map (reidF f), vd.created,
                            vd.last_modified⟩, false⟩
                        ⟨st.masterPassword, st.masterKey,
                          some ⟨vd.version, rem, vd.created, vd.last_modified⟩,
                          false⟩ fs now n rfl rfl rfl
                      rcases hA : save ⟨st.masterPassword, st.masterKey,
                          some ⟨vd.version, rem.map (reidF f), vd.created,
                            vd.last_modified⟩, false⟩ fs now n with ⟨a1, b1, c1⟩
                      rcases hB : save ⟨st.masterPassword, st.masterKey,
                          some ⟨vd.version, rem, vd.created, vd.last_modified⟩,
                          false⟩ fs now n with ⟨a2, b2, c2⟩
                      rw [hA, hB] at hsame
                      simp only at hsame
                      subst hsame
                      cases c1 <;> simp [Except.map]

/-- `update_credential` never reads the `"id"` field. -/
theorem update_credential_reid (f : Option Nat → Option Nat) (st : VaultState)
    (fs : FileState) (svc : String) (u : UpdateData) (now : Int) (n : Nat) :
    (update_credential (mapIds f st) fs svc u now n).2.2 =
      Except.map (Option.map (reidF f)) (update_credential st fs svc u now n).2.2 := by
  cases hl : st.lockedFlag with
  | true => simp [update_credential, mapIds, hl, Except.map]
  | false =>
      cases hg : (match u.service with
          | some s => !(decide (pyLower (pyStrip s) = pyLower (pyStrip svc)))
          | none => false) with
      | true => simp [update_credential, mapIds, hl, hg, Except.map]
      | false =>
          cases hv : st.vaultData with
          | none => simp [update_credential, mapIds, hl, hg, hv, Except.map]
          | some vd =>
              simp only [update_credential, mapIds, hl, hg, hv, Bool.false_eq_true,
                if_false, Option.map_some']
              rw [updateScan_reid]
              cases hscan : updateScan svc u now vd.entries with
              | error err => simp [Except.map]
              | ok o =>
                  cases o with
                  | notFound => simp [Except.map, mapUpdOutcome]
                  | expiredMatch => simp [Except.map, mapUpdOutcome]
                  | updated e2 newEntries =>
                      simp only [Except.map, mapUpdOutcome]
                      have hsame := save_result_same
                        ⟨st.masterPassword, st.masterKey,
                          some ⟨vd.version, newEntries.map (reidF f), vd.created,
                            vd.last_modified⟩, false⟩
                        ⟨st.masterPassword, st.masterKey,
                          some ⟨vd.version, newEntries, vd.created, vd.last_modified⟩,
                          false⟩ fs now n rfl rfl rfl
                      rcases hA : save ⟨st.masterPassword, st.masterKey,
                          some ⟨vd.version, newEntries.map (reidF f), vd.created,
                            vd.last_modified⟩, false⟩ fs now n with ⟨a1, b1, c1⟩
                      rcases hB : save ⟨st.masterPassword, st.masterKey,
                          some ⟨vd.version, newEntries, vd.created, vd.last_modified⟩,
                          false⟩ fs now n with ⟨a2, b2, c2⟩
                      rw [hA, hB] at hsame
                      simp only at hsame
                      subst hsame
                      cases c1 <;> simp [Except.map]

/-- `delete_credential` never reads the `"id"` field. -/
theorem delete_credential_reid (f : Option Nat → Option Nat) (st : VaultState)
    (fs : FileState) (svc : String) (now : Int) (n : Nat) :
    (delete_credential (mapIds f st) fs svc now n).2.2 =
      (delete_credential st fs svc now n).2.2 := by
  cases hl : st.lockedFlag with
  | true => simp [delete_credential, mapIds, hl]
  | false =>
      cases hv : st.vaultData with
      | none => simp [delete_credential, mapIds, hl, hv]
      | some vd =>
          simp only [delete_credential, mapIds, hl, hv, Bool.false_eq_true, if_false,
            Option.map_some']
          rw [filter_serviceMatch_reid]
          simp only [List.length_map]
          by_cases hc : ((vd.entries.filter fun e => !(serviceMatch e svc)).length
              < vd.entries.length)
          · simp only [hc, if_true]
            have hsame := save_result_same
              ⟨st.masterPassword, st.masterKey,
                some ⟨vd.version,
                  (vd.entries.filter fun e => !(serviceMatch e svc)).map (reidF f),
                  vd.created, vd.last_modified⟩, false⟩
              ⟨st.masterPassword, st.masterKey,
                some ⟨vd.version, vd.entries.filter fun e => !(serviceMatch e svc),
                  vd.created, vd.last_modified⟩, false⟩ fs now n rfl rfl rfl
            rcases hA : save ⟨st.masterPassword, st.masterKey,
                some ⟨vd.version,
                  (vd.entries.filter fun e => !(serviceMatch e svc)).map (reidF f),
                  vd.created, vd.last_modified⟩, false⟩ fs now n with ⟨a1, b1, c1⟩
            rcases hB : save ⟨st.masterPassword, st.masterKey,
                some ⟨vd.version, vd.entries.filter fun e => !(serviceMatch e svc),
                  vd.created, vd.last_modified⟩, false⟩ fs now n with ⟨a2, b2, c2⟩
            rw [hA, hB] at hsame
            simp only at hsame
            subst hsame
            cases c1 <;> simp
          · simp [hc]

/-- `get_service_fields` is unchanged by a presence-preserving id
replacement. -/
theorem get_service_fields_reid (f : Option Nat → Option Nat)
    (hf : ∀ o : Option Nat, (f o).isSome = o.isSome) (st : VaultState)
    (svc : String) (now : Int) :
    get_service_fields (mapIds f st) svc now = get_service_fields st svc now := by
  cases hl : st.lockedFlag with
  | true => simp [get_service_fields, mapIds, hl]
  | false =>
      cases hv : st.vaultData with
      | none => simp [get_service_fields, mapIds, hl, hv]
      | some vd =>
          simp only [get_service_fields, mapIds, hl, hv, Bool.false_eq_true, if_false,
            Option.map_some']
          exact fieldsScan_reid f hf svc now vd.entries

/-- C8 (amended): `add_credential` does not assign an `id` field — the
stored entry carries exactly the caller's id, in particular none when
the caller supplied none — and no lookup operation uses the id:
renumbering every entry's id field changes no get/update/delete outcome
(beyond the same renumbering on returned entries) and no get_fields
outcome when id presence is preserved; lookup is always by the `service`
field. -/
theorem c8_no_id_assigned :
    (∀ (input : Entry) (ttl : Option Int) (now : Int),
      (storedEntry input ttl now).idField = input.idField) ∧
    (∀ (f : Option Nat → Option Nat) (st : VaultState) (fs : FileState)
        (svc : String) (purge : Bool) (now : Int) (n : Nat),
      (get_credential (mapIds f st) fs svc purge now n).2.2 =
        Except.map (Option.map (reidF f)) (get_credential st fs svc purge now n).2.2) ∧
    (∀ (f : Option Nat → Option Nat) (st : VaultState) (fs : FileState)
        (svc : String) (u : UpdateData) (now : Int) (n : Nat),
      (update_credential (mapIds f st) fs svc u now n).2.2 =
        Except.map (Option.map (reidF f)) (update_credential st fs svc u now n).2.2) ∧
    (∀ (f : Option Nat → Option Nat) (st : VaultState) (fs : FileState)
        (svc : String) (now : Int) (n : Nat),
      (delete_credential (mapIds f st) fs svc now n).2.2 =
        (delete_credential st fs svc now n).2.2) ∧
    (∀ f : Option Nat → Option Nat, (∀ o : Option Nat, (f o).isSome = o.isSome) →
      ∀ (st : VaultState) (svc : String) (now : Int),
        get_service_fields (mapIds f st) svc now = get_service_fields st svc now) := by
  refine ⟨?_, get_credential_reid, update_credential_reid, delete_credential_reid,
    get_service_fields_reid⟩
  intro input ttl now
  cases ttl <;> cases h : input.created_at <;> simp [storedEntry, h]

/-- C8 counterexample: the claim as stated fails on the code — no `id`
field is ever assigned at insertion time.  Adding `{service := "github"}`
to a fresh vault succeeds, and the stored entry has no id: its key set
contains no `"id"`. -/
theorem c8_counterexample :
    (add_credential (create (init "p") 0 0 0).1 (create (init "p") 0 0 0).2.1
      ⟨"github", .absent, none, none, none, []⟩ none 1 1).2.2 =
      .ok (storedEntry ⟨"github", .absent, none, none, none, []⟩ none 1) ∧
    (storedEntry ⟨"github", .absent, none, none, none, []⟩ none 1).idField = none ∧
    ¬ "id" ∈ entryKeys (storedEntry ⟨"github", .absent, none, none, none, []⟩ none 1) := by
  exact ⟨rfl, rfl, by decide⟩

/-- Witness for `c8_no_id_assigned` at concrete inputs: the stored entry
keeps the caller's id, and an id renumbering leaves a concrete
`get_credential` and `get_service_fields` outcome unchanged. -/
theorem c8_no_id_assigned_witness :
    (storedEntry ⟨"github", .absent, none, none, some 7, []⟩ none 1).idField = some 7 ∧
    (get_credential (mapIds (fun _ => none) ⟨"p", some (deriveKey "p" 0),
        some ⟨2, [⟨"github", .absent, none, none, some 3, []⟩], 0, 0⟩, false⟩)
        .absent "github" false 0 0).2.2 =
      Except.map (Option.map (reidF (fun _ => none)))
        (get_credential ⟨"p", some (deriveKey "p" 0),
          some ⟨2, [⟨"github", .absent, none, none, some 3, []⟩], 0, 0⟩, false⟩
          .absent "github" false 0 0).2.2 ∧
    get_service_fields (mapIds (fun o => o) ⟨"p", some (deriveKey "p" 0),
        some ⟨2, [⟨"github", .absent, none, none, some 3, []⟩], 0, 0⟩, false⟩)
        "github" 0 =
      get_service_fields ⟨"p", some (deriveKey "p" 0),
        some ⟨2, [⟨"github", .absent, none, none, some 3, []⟩], 0, 0⟩, false⟩
        "github" 0 :=
  ⟨c8_no_id_assigned.1 ⟨"github", .absent, none, none, some 7, []⟩ none 1,
   c8_no_id_assigned.2.1 (fun _ => none) ⟨"p", some (deriveKey "p" 0),
     some ⟨2, [⟨"github", .absent, none, none, some 3, []⟩], 0, 0⟩, false⟩
     .absent "github" false 0 0,
   c8_no_id_assigned.2.2.2.2 (fun o => o) (fun _ => rfl) ⟨"p", some (deriveKey "p" 0),
     some ⟨2, [⟨"github", .absent, none, none, some 3, []⟩], 0, 0⟩, false⟩ "github" 0⟩

/-- C9: `VaultManager.is_locked` reports `true` whenever the manager
holds no vault instance (never successfully initialised), so probing the
lock state before `initialize()` observes a locked vault rather than an
error. -/
theorem c9_manager_uninitialized_locked (m : VaultManager) (h : m.vault = none) :
    VaultManager.is_locked m = true := by
  simp [VaultManager.is_locked, h]

/-- Witness for `c9_manager_uninitialized_locked`: the fresh manager. -/
theorem c9_manager_uninitialized_locked_witness :
    VaultManager.is_locked ⟨none⟩ = true :=
  c9_manager_uninitialized_locked ⟨none⟩ rfl

/-- C10: a falsy `expires_at` — key absent, value `None`, or the empty
string — makes expiry evaluation report "not expired" (infinite TTL)
without raising; in particular an empty-string `expires_at` is not
treated as a malformed timestamp. -/
theorem c10_falsy_expiry_infinite (e : Entry) (now : Int)
    (h : e.expires_at = .absent ∨ e.expires_at = .pynone ∨ e.expires_at = .emptyStr) :
    isEntryExpired e now = .ok false := by
  rcases h with h | h | h <;> simp [isEntryExpired, h]

/-- Witness for `c10_falsy_expiry_infinite`: an empty-string
`expires_at` evaluates as never expired. -/
theorem c10_falsy_expiry_infinite_witness :
    isEntryExpired ⟨"x", .emptyStr, none, none, none, []⟩ 5 = .ok false :=
  c10_falsy_expiry_infinite ⟨"x", .emptyStr, none, none, none, []⟩ 5
    (Or.inr (Or.inr rfl))

/-- Witness for `c4_locked_guard` on a freshly initialised (locked)
vault object. -/
theorem c4_locked_guard_witness :
    (add_credential (init "p") .absent ⟨"a", .absent, none, none, none, []⟩
        none 0 0).2.2 = .error .vaultLocked ∧
    (update_credential (init "p") .absent "a" ⟨none, none, none, []⟩ 0 0).2.2
        = .error .vaultLocked ∧
    (get_credential (init "p") .absent "a" true 0 0).2.2 = .error .vaultLocked ∧
    get_service_fields (init "p") "a" 0 = .error .vaultLocked ∧
    (delete_credential (init "p") .absent "a" 0 0).2.2 = .error .vaultLocked ∧
    (purge_expired (init "p") .absent 0 0).2.2 = .error .vaultLocked ∧
    list_services (init "p") false 0 = .ok [] :=
  c4_locked_guard (init "p") .absent rfl "a" ⟨"a", .absent, none, none, none, []⟩
    none ⟨none, none, none, []⟩ 0 0 true false

end EncryptedVault

end Vault
